import Mathlib

/-!
Verification of the nexus HTTP gateway data plane.

Go strings are modelled as `List Char` (byte/char sequences), Go `int` as `Int`,
Go `time.Time` / `time.Duration` as `Int` nanosecond counts, Go maps as
association lists (`lookupA` returns the most recent insertion, matching Go map
read semantics when inserts are modelled as `cons`), and Go float64 arithmetic
in the rate limiter as rationals rounded after every operation by `fl`, an
executable model of IEEE-754 binary64 round-to-nearest, ties-to-even.

Names ending in reserved scanner tokens are renamed with a `Pfx` suffix:
`hasPfx` is Go `strings.HasPrefix`, `trimPfx` is `strings.TrimPrefix`,
`stripPfxApply` is `stripPrefixFilter.Apply`, `pathPfx` is `PathPrefix`.
-/

set_option maxRecDepth 8000

namespace Nexus

/-- Go strings modelled as char lists. -/
abbrev Str := List Char

/-- Decidable equality for `Except`, used to evaluate validator and compiler
results on concrete configurations. -/
instance {ε α : Type} [DecidableEq ε] [DecidableEq α] : DecidableEq (Except ε α) :=
  fun x y =>
    match x, y with
    | .error a, .error b =>
        decidable_of_iff (a = b) ⟨fun h => by rw [h], fun h => by injection h⟩
    | .ok a, .ok b =>
        decidable_of_iff (a = b) ⟨fun h => by rw [h], fun h => by injection h⟩
    | .error _, .ok _ => isFalse fun he => Except.noConfusion he
    | .ok _, .error _ => isFalse fun he => Except.noConfusion he

/-- Go strings.HasPrefix(s, p). -/
def hasPfx (s p : Str) : Bool := p.isPrefixOf s

/-- Go strings.TrimPrefix(s, p): drops p when it is a prefix of s, else returns s. -/
def trimPfx (s p : Str) : Str := if hasPfx s p then s.drop p.length else s

/-- Association-list lookup: first (most recently inserted) binding wins,
matching Go map reads when writes are modelled as cons. -/
def lookupA {β : Type} : List (Str × β) → Str → Option β
  | [], _ => none
  | (k, v) :: rest, k' => if k' = k then some v else lookupA rest k'

/-! ## Circuit breaker (internal/circuitbreaker) -/

/-- Circuit breaker states, from the Go `State` enumeration. -/
inductive CBState where
  | closed
  | opened
  | halfOpen
deriving Repr, DecidableEq

/-- The mutable fields of Go `CircuitBreaker` (mutex and callback omitted;
times are nanosecond instants). -/
structure CircuitBreaker where
  name : Str
  state : CBState
  failureCount : Int
  successCount : Int
  failureThreshold : Int
  successThreshold : Int
  timeout : Int
  lastFailure : Int
deriving Repr, DecidableEq

/-- Go `New(name, failureThreshold, successThreshold, timeout)`; the zero
time.Time is modelled as instant 0. -/
def CircuitBreaker.new (name : Str) (failureThreshold successThreshold timeout : Int) :
    CircuitBreaker :=
  { name := name
    state := .closed
    failureCount := 0
    successCount := 0
    failureThreshold := failureThreshold
    successThreshold := successThreshold
    timeout := timeout
    lastFailure := 0 }

/-- Go `CircuitBreaker.Allow` at instant `now`: `time.Since(cb.lastFailure)` is
`now - cb.lastFailure`.  Returns (admit, updated breaker). -/
def CircuitBreaker.allow (cb : CircuitBreaker) (now : Int) : Bool × CircuitBreaker :=
  match cb.state with
  | .closed => (true, cb)
  | .opened =>
      if cb.timeout ≤ now - cb.lastFailure then
        (true, { cb with state := .halfOpen })
      else
        (false, cb)
  | .halfOpen => (true, cb)

/-- Go `CircuitBreaker.RecordSuccess`. -/
def CircuitBreaker.recordSuccess (cb : CircuitBreaker) : CircuitBreaker :=
  match cb.state with
  | .halfOpen =>
      let sc := cb.successCount + 1
      if cb.successThreshold ≤ sc then
        { cb with failureCount := 0, successCount := 0, state := .closed }
      else
        { cb with successCount := sc }
  | .closed => { cb with failureCount := 0 }
  | .opened => cb

/-- Go `CircuitBreaker.RecordFailure` at instant `now`. -/
def CircuitBreaker.recordFailure (cb : CircuitBreaker) (now : Int) : CircuitBreaker :=
  let fc := cb.failureCount + 1
  let cb' := { cb with failureCount := fc, lastFailure := now }
  if cb.failureThreshold ≤ fc then { cb' with state := .opened } else cb'

/-! ## gRPC length-prefixed framing (applyGRPCRewrite / GRPCUpstream.Handle) -/

/-- Big-endian bytes of `binary.BigEndian.PutUint32(_, uint32 n)`. -/
def uint32be (n : Nat) : List Nat :=
  [(n / 16777216) % 256, (n / 65536) % 256, (n / 256) % 256, n % 256]

/-- Decode big-endian bytes to a natural number. -/
def beNat (bs : List Nat) : Nat := bs.foldl (fun a b => a * 256 + b) 0

/-- The gRPC frame built by `applyGRPCRewrite`: one zero (uncompressed) byte,
four big-endian length bytes, then the message. -/
def grpcFrame (body : List Nat) : List Nat := 0 :: uint32be body.length ++ body

/-- The body-rewriting step of `applyGRPCRewrite`: given the inbound body
(`none` when `r.Body == nil`), produce the outbound body and the updated
`Content-Length` (unchanged when there is no body). -/
def applyGRPCRewriteBody (body : Option (List Nat)) (contentLength : Int) :
    Option (List Nat) × Int :=
  match body with
  | none => (none, contentLength)
  | some b => (some (grpcFrame b), (Int.ofNat (grpcFrame b).length))

/-! ## strip_prefix filter (stripPrefixFilter.Apply) -/

/-- Go `stripPrefixFilter.Apply` on the URL path: trims the configured
prefix and re-roots the result at `/` when it is empty or does not start
with a slash. -/
def stripPfxApply (pfx path : Str) : Str :=
  if hasPfx path pfx then
    let newPath := trimPfx path pfx
    if newPath = [] ∨ newPath.head? ≠ some '/' then '/' :: newPath else newPath
  else path

/-! ## Middleware chain (internal/middleware Chain / recoverWrap) -/

/-- A simplified `http.Request` for the middleware layer. -/
structure MReq where
  path : Str
deriving Repr, DecidableEq

/-- The observable state of an `http.ResponseWriter`: `status` is the code of
the first `WriteHeader` call (`none` if the response has not been started),
`body` the bytes written so far. -/
structure WState where
  status : Option Nat
  body : List Nat
deriving Repr, DecidableEq

/-- Go `WriteHeader`: a no-op once the response has been started. -/
def writeHeader (w : WState) (code : Nat) : WState :=
  if w.status.isSome then w else { w with status := some code }

/-- Go `http.Error(w, msg, code)`: write the header (no-op if started) and
append the message bytes. -/
def httpError (w : WState) (msg : List Nat) (code : Nat) : WState :=
  let w' := writeHeader w code
  { w' with body := w'.body ++ msg }

/-- Marker bytes for the "Internal Server Error" message body. -/
def iseMsg : List Nat := [73, 83, 69]

/-- A handler maps a request and writer state to the final writer state plus a
flag that is true when the handler panicked (writes made before the panic are
kept). -/
def MHandler : Type := MReq → WState → WState × Bool

/-- Go `Middleware`: a function wrapping a handler. -/
def MMiddleware : Type := MHandler → MHandler

/-- Go `recoverWrap`: run the handler; on panic, swallow it and respond with
`http.Error(w, "Internal Server Error", 500)`. -/
def recoverWrap (h : MHandler) : MHandler := fun r w =>
  let out := h r w
  if out.2 then (httpError out.1 iseMsg 500, false) else (out.1, false)

/-- Go `Chain(handler, middlewares...)`: iterates the middleware list from the
last to the first, wrapping each middleware's handler with `recoverWrap`; an
empty list returns the terminal handler unchanged. -/
def chain (handler : MHandler) : List MMiddleware → MHandler
  | [] => handler
  | m :: ms => recoverWrap (m (chain handler ms))

/-! ## Endpoint selection (runtime CompiledCluster.NextEndpoint) -/

/-- Go `config.ClusterEndpoint`. -/
structure ClusterEndpoint where
  url : Str
  target : Str
  addr : Str
deriving Repr, DecidableEq

/-- Go `runtime.CompiledCluster` (the atomic counter is threaded explicitly;
keepalive/grpc/dubbo parameters omitted as selection never reads them). -/
structure CompiledClusterCore where
  name : Str
  ctype : Str
  endpoints : List ClusterEndpoint
  lb : Str
deriving Repr, DecidableEq

/-- Go `CompiledCluster.NextEndpoint` with the `atomic.Uint64` counter passed
in and returned: `idx := counter.Add(1) - 1` in uint64 arithmetic, then index
`idx % len(endpoints)`.  Returns `none` (Go `(zero, false)`) for an empty
endpoint list, leaving the counter untouched. -/
def nextEndpoint (c : CompiledClusterCore) (counter : Nat) : Option ClusterEndpoint × Nat :=
  if c.endpoints.length = 0 then
    (none, counter)
  else
    let c1 := (counter + 1) % 2 ^ 64
    let idx := (c1 + (2 ^ 64 - 1)) % 2 ^ 64
    (c.endpoints.get? (idx % c.endpoints.length), c1)

/-! ## Sharded sliding-window rate limiter (internal/ratelimit) -/

/-- Rate-limit keys are Go strings seen as byte sequences. -/
abbrev RKey := List Nat

/-- Go `fnv32a`: FNV-1a over the key bytes in 32-bit arithmetic. -/
def fnv32a (s : RKey) : Nat :=
  s.foldl (fun h b => ((h ^^^ b) * 16777619) % 2 ^ 32) 2166136261

/-- Go `getShard`: shard index `fnv32a(key) % numShards` with 256 shards. -/
def shardIdx (key : RKey) : Nat := fnv32a key % 256

/-- One per-key window: `count`/`prevCount` request counts and the nanosecond
instant `currStart`. -/
structure Window where
  count : Nat
  prevCount : Nat
  currStart : Int
deriving Repr, DecidableEq

/-- Go `ShardedSlidingWindowLimiter` configuration (`rate int`,
`window time.Duration` in nanoseconds). -/
structure Limiter where
  rate : Int
  window : Int
deriving Repr, DecidableEq

/-- The limiter's mutable state: 256 shard maps from key to window (indexed
here by arbitrary Nat; only indices below 256 are ever used). -/
structure LimiterState where
  shards : Nat → RKey → Option Window

/-- The fresh limiter state: every shard map is empty. -/
def emptyLimiterState : LimiterState := ⟨fun _ _ => none⟩

/-- Store a window for `key` in shard `i`. -/
def LimiterState.store (st : LimiterState) (i : Nat) (key : RKey) (w : Window) :
    LimiterState :=
  ⟨fun j => if j = i then (fun k => if k = key then some w else st.shards j k)
            else st.shards j⟩

/-- Look up the window of `key` in its shard. -/
def LimiterState.find (st : LimiterState) (key : RKey) : Option Window :=
  st.shards (shardIdx key) key

/-- The in-place window rollover of `Allow` (lines 54–64 of the Go source):
when a full window has elapsed, shift `count` into `prevCount` (zeroing it if
the data is two windows stale) and restart the window at `now`. -/
def rollWindow (l : Limiter) (w : Window) (now : Int) : Window :=
  if l.window ≤ now - w.currStart then
    ⟨0, if 2 * l.window ≤ now - w.currStart then 0 else w.count, now⟩
  else w

/-- The elapsed time after the rollover (reset to 0 exactly when the rollover
fired). -/
def rollElapsed (l : Limiter) (w : Window) (now : Int) : Int :=
  if l.window ≤ now - w.currStart then 0 else now - w.currStart

/-- Fuel-based floor base-2 logarithm (0 for n ≤ 1); total and
kernel-computable (the fuel only bounds the recursion, the value halves each
step). -/
def log2Aux : ℕ → ℕ → ℕ
  | 0, _ => 0
  | fuel + 1, n => if n ≤ 1 then 0 else log2Aux fuel (n / 2) + 1

/-- Floor base-2 logarithm of a natural number. -/
def nlog2 (n : ℕ) : ℕ := log2Aux n n

/-- Round the fraction sn / sd to the nearest integer, ties to even. -/
def roundNE (sn sd : ℕ) : ℕ :=
  if 2 * (sn % sd) < sd then sn / sd
  else if sd < 2 * (sn % sd) then sn / sd + 1
  else if (sn / sd) % 2 = 0 then sn / sd else sn / sd + 1

/-- Binary64 rounding (round-to-nearest, ties-to-even) of the positive
rational a / b (a, b ≥ 1): scale into the mantissa range [2^52, 2^53), round,
and scale back.  With A = ⌊log2 a⌋ and B = ⌊log2 b⌋ the binade of a / b is
A - B when 2^(A-B) ≤ a / b (equivalently b·2^A ≤ a·2^B) and A - B - 1
otherwise. -/
def flPos (a b : ℕ) : ℚ :=
  if b * 2 ^ nlog2 a ≤ a * 2 ^ nlog2 b then
    ((roundNE (a * 2 ^ (52 + nlog2 b)) (b * 2 ^ nlog2 a) : ℤ) : ℚ) *
      (((2 ^ nlog2 a : ℤ) : ℚ) / ((2 ^ (52 + nlog2 b) : ℤ) : ℚ))
  else
    ((roundNE (a * 2 ^ (53 + nlog2 b)) (b * 2 ^ nlog2 a) : ℤ) : ℚ) *
      (((2 ^ nlog2 a : ℤ) : ℚ) / ((2 ^ (53 + nlog2 b) : ℤ) : ℚ))

/-- IEEE-754 binary64 rounding (round-to-nearest, ties-to-even) of an exact
rational, the result of every float64 conversion and arithmetic operation in
`Allow`.  Exponent overflow and subnormal underflow cannot arise from the
int64-derived operands of `Allow` (magnitudes stay within 2^63, ratios above
2^-63) and are not modelled. -/
def fl (q : ℚ) : ℚ :=
  if q = 0 then 0
  else if q.num < 0 then -flPos q.num.natAbs q.den else flPos q.num.natAbs q.den

/-- Go `weight := 1.0 - float64(elapsed)/float64(l.window)` evaluated in
binary64: both int64 → float64 conversions, the division and the subtraction
each round. -/
def flWeight (l : Limiter) (w : Window) (now : Int) : ℚ :=
  fl (1 - fl (fl ((rollElapsed l w now : ℚ)) / fl ((l.window : ℚ))))

/-- Go `estimate := float64(w.prevCount)*weight + float64(w.count)` evaluated
in binary64 with separate roundings for the product and the sum (no fused
multiply-add; the Go spec would also permit fusing). -/
def flEstimate (l : Limiter) (w : Window) (now : Int) : ℚ :=
  fl (fl (fl (((rollWindow l w now).prevCount : ℚ)) * flWeight l w now) +
    fl (((rollWindow l w now).count : ℚ)))

/-- The weighted in-window estimate as the spec words it (§4.4 steps 3–4), in
exact rational arithmetic, computed on the post-rollover window:
`prev_count · (1 - elapsed/window_size) + curr_count`.  The program instead
evaluates this expression in float64: see `flEstimate`. -/
def specWindowEstimate (l : Limiter) (w : Window) (now : Int) : ℚ :=
  ((rollWindow l w now).prevCount : ℚ) *
      (1 - (rollElapsed l w now : ℚ) / (l.window : ℚ)) +
    ((rollWindow l w now).count : ℚ)

/-- Go `ShardedSlidingWindowLimiter.Allow` at instant `now`.  Returns the
admission decision and the updated state.  The in-place mutations of the Go
code are factored into `rollWindow`/`rollElapsed`; the rollover persists even
when the request is denied.  The float64 `weight`/`estimate` arithmetic is
modelled by rounding after every conversion and operation with `fl`; the
`estimate >= float64(l.rate)` comparison itself is exact on the rounded
values. -/
def Limiter.allow (l : Limiter) (st : LimiterState) (now : Int) (key : RKey) :
    Bool × LimiterState :=
  let i := shardIdx key
  match st.shards i key with
  | none => (true, st.store i key ⟨1, 0, now⟩)
  | some w =>
      let w1 : Window := rollWindow l w now
      let estimate : ℚ :=
        fl (fl (fl ((w1.prevCount : ℚ)) *
            fl (1 - fl (fl ((rollElapsed l w now : ℚ)) / fl ((l.window : ℚ))))) +
          fl ((w1.count : ℚ)))
      if fl ((l.rate : ℚ)) ≤ estimate then
        (false, st.store i key w1)
      else
        (true, st.store i key ⟨w1.count + 1, w1.prevCount, w1.currStart⟩)

/-- State after `n` successive `Allow` calls for `key` at the same instant
`now`, starting from the empty limiter state. -/
def callState (l : Limiter) (now : Int) (key : RKey) : Nat → LimiterState
  | 0 => emptyLimiterState
  | n + 1 => (l.allow (callState l now key n) now key).2

/-- Result of the `n`-th `Allow` call (1-based) in the same-instant sequence. -/
def callResult (l : Limiter) (now : Int) (key : RKey) (n : Nat) : Bool :=
  (l.allow (callState l now key (n - 1)) now key).1

/-! ## Configuration model (internal/config/config.go)

Only the fields read by `Validate` and `Compile` are modelled; logging,
rate-limit, auth, admin and timeout settings are never consulted there. -/

/-- Go `config.Target`. -/
structure Target where
  address : Str
deriving Repr, DecidableEq

/-- Go `config.Upstream`. -/
structure UpstreamCfg where
  name : Str
  targets : List Target
deriving Repr, DecidableEq

/-- Go `config.PathRule` (`Type` is `ptype`: exact or prefix). -/
structure PathRule where
  path : Str
  ptype : Str
deriving Repr, DecidableEq

/-- Go `config.PathRewrite` (`Prefix` is `pfx`). -/
structure PathRw where
  pfx : Str
deriving Repr, DecidableEq

/-- Go `config.HeaderRewrite`. -/
structure HeaderRw where
  add : List (Str × Str)
  set : List (Str × Str)
  remove : List Str
deriving Repr, DecidableEq

/-- Go `config.GRPCRewrite`. -/
structure GRPCRw where
  service : Str
  method : Str
deriving Repr, DecidableEq

/-- Go `config.DubboRewrite`. -/
structure DubboRw where
  service : Str
  method : Str
  group : Str
  version : Str
deriving Repr, DecidableEq

/-- Go `config.RewriteRule`. -/
structure RewriteRule where
  protocol : Str
  pathRw : Option PathRw
  headers : Option HeaderRw
  grpc : Option GRPCRw
  dubbo : Option DubboRw
deriving Repr, DecidableEq

/-- Go `config.Route` (legacy form). -/
structure RouteCfg where
  name : Str
  host : Str
  paths : List PathRule
  upstream : Str
  rewrite : Option RewriteRule
deriving Repr, DecidableEq

/-- Go `config.Listener`. -/
structure Listener where
  name : Str
  addr : Str
  h2c : Bool
deriving Repr, DecidableEq

/-- Go `config.KeepaliveConfig`. -/
structure KeepaliveConfig where
  maxIdleConns : Int
  idleConnTimeoutMs : Int
deriving Repr, DecidableEq

/-- Go `config.ClusterGRPC`. -/
structure ClusterGRPC where
  authority : Str
  maxRecvMsgMB : Int
deriving Repr, DecidableEq

/-- Go `config.ClusterDubbo`. -/
structure ClusterDubbo where
  application : Str
  group : Str
  version : Str
  serialization : Str
deriving Repr, DecidableEq

/-- Go `config.Cluster` (`Type` is `ctype`). -/
structure ClusterCfg where
  name : Str
  ctype : Str
  endpoints : List ClusterEndpoint
  lb : Str
  keepalive : Option KeepaliveConfig
  grpc : Option ClusterGRPC
  dubbo : Option ClusterDubbo
deriving Repr, DecidableEq

/-- Go `config.HeaderMatch`. -/
structure HeaderMatch where
  hname : Str
  exact : Str
  contains : Str
deriving Repr, DecidableEq

/-- Go `config.RouteMatch` (`PathPrefix` is `pathPfx`). -/
structure RouteMatch where
  methods : List Str
  path : Str
  pathPfx : Str
  headers : List HeaderMatch
deriving Repr, DecidableEq

/-- Go `config.RouteFilter` (`Type` is `ftype`; args as an association list;
a missing argument reads as the empty string, like a Go map). -/
structure RouteFilter where
  ftype : Str
  args : List (Str × Str)
deriving Repr, DecidableEq

/-- Go `config.RouteUpstreamGRPC` (transcode modes omitted: never validated or
compiled). -/
structure RouteUpstreamGRPC where
  service : Str
  method : Str
deriving Repr, DecidableEq

/-- Go `config.RouteUpstreamDubbo`. -/
structure RouteUpstreamDubbo where
  iface : Str
  method : Str
  paramTypes : List Str
deriving Repr, DecidableEq

/-- Go `config.RouteUpstream`. -/
structure RouteUpstream where
  cluster : Str
  timeoutMs : Int
  grpc : Option RouteUpstreamGRPC
  dubbo : Option RouteUpstreamDubbo
deriving Repr, DecidableEq

/-- Go `config.RouteV2` (`Match` is `rmatch`). -/
structure RouteV2 where
  name : Str
  rmatch : RouteMatch
  filters : List RouteFilter
  upstream : RouteUpstream
deriving Repr, DecidableEq

/-- Go `config.ServerConfig` (timeouts unused by validation/compilation). -/
structure ServerConfig where
  listen : Str
deriving Repr, DecidableEq

/-- Go `config.Config`, restricted to the fields `Validate`/`Compile` read. -/
structure Config where
  server : ServerConfig
  upstreams : List UpstreamCfg
  routes : List RouteCfg
  listeners : List Listener
  clusters : List ClusterCfg
  routesV2 : List RouteV2
deriving Repr, DecidableEq

/-! String constants used by the validator and compiler. -/

/-- The literal exact. -/
def tExact : Str := ['e', 'x', 'a', 'c', 't']

/-- The literal prefix. -/
def tPfx : Str := ['p', 'r', 'e', 'f', 'i', 'x']

/-- The literal http. -/
def tHttp : Str := ['h', 't', 't', 'p']

/-- The literal grpc. -/
def tGrpc : Str := ['g', 'r', 'p', 'c']

/-- The literal dubbo. -/
def tDubbo : Str := ['d', 'u', 'b', 'b', 'o']

/-- The literal strip_prefix. -/
def tStripPfx : Str :=
  ['s', 't', 'r', 'i', 'p', '_', 'p', 'r', 'e', 'f', 'i', 'x']

/-- The literal header_set. -/
def tHeaderSet : Str := ['h', 'e', 'a', 'd', 'e', 'r', '_', 's', 'e', 't']

/-- The literal key. -/
def tKey : Str := ['k', 'e', 'y']

/-- The literal round_robin. -/
def tRoundRobin : Str :=
  ['r', 'o', 'u', 'n', 'd', '_', 'r', 'o', 'b', 'i', 'n']

/-- The literal pick_first. -/
def tPickFirst : Str :=
  ['p', 'i', 'c', 'k', '_', 'f', 'i', 'r', 's', 't']

/-- Go map read with string default: `args[k]` is the empty string when the
key is absent. -/
def argGet (args : List (Str × Str)) (k : Str) : Str := (lookupA args k).getD []

/-! ## Validation (internal/config/validator.go)

Each Go `fmt.Errorf` site is one `VError` constructor; the formatted message
text is elided. -/

/-- Validation errors, one per distinct error site in `Validate` and its
helpers. -/
inductive VError where
  | serverListenRequired
  | upstreamNameRequired
  | dupUpstreamName
  | upstreamNeedsTarget
  | targetAddressRequired
  | routeNameRequired
  | routeUpstreamRequired
  | routeUnknownUpstream
  | routeNeedsPathRule
  | routePathRequired
  | routePathTypeInvalid
  | rwGrpcConfigRequired
  | rwGrpcServiceRequired
  | rwGrpcMethodRequired
  | rwDubboConfigRequired
  | rwDubboServiceRequired
  | rwDubboMethodRequired
  | rwUnsupportedProtocol
  | listenerNameRequired
  | dupListenerName
  | listenerAddrRequired
  | clusterNameRequired
  | dupClusterName
  | clusterTypeInvalid
  | clusterNeedsEndpoint
  | endpointAddressRequired
  | routeV2NameRequired
  | routeV2MatchRequired
  | routeV2ClusterRequired
  | routeV2UnknownCluster
  | filterTypeRequired
  | stripPfxNeedsArg
  | headerSetNeedsArg
  | upGrpcServiceRequired
  | upGrpcMethodRequired
  | upDubboInterfaceRequired
  | upDubboMethodRequired
deriving Repr, DecidableEq

/-- Go `validateRewrite`. -/
def validateRw (rw : Option RewriteRule) : Except VError Unit :=
  match rw with
  | none => .ok ()
  | some rw =>
      if rw.protocol = [] ∨ rw.protocol = tHttp then .ok ()
      else if rw.protocol = tGrpc then
        match rw.grpc with
        | none => .error .rwGrpcConfigRequired
        | some g =>
            if g.service = [] then .error .rwGrpcServiceRequired
            else if g.method = [] then .error .rwGrpcMethodRequired
            else .ok ()
      else if rw.protocol = tDubbo then
        match rw.dubbo with
        | none => .error .rwDubboConfigRequired
        | some d =>
            if d.service = [] then .error .rwDubboServiceRequired
            else if d.method = [] then .error .rwDubboMethodRequired
            else .ok ()
      else .error .rwUnsupportedProtocol

/-- Target checks inside the upstream loop of `Validate`. -/
def validateTargets : List Target → Except VError Unit
  | [] => .ok ()
  | t :: rest =>
      if t.address = [] then .error .targetAddressRequired
      else validateTargets rest

/-- The upstream loop of `Validate`, threading the set of seen names. -/
def validateUpstreams : List UpstreamCfg → List Str → Except VError (List Str)
  | [], seen => .ok seen
  | u :: rest, seen =>
      if u.name = [] then .error .upstreamNameRequired
      else if u.name ∈ seen then .error .dupUpstreamName
      else if u.targets = [] then .error .upstreamNeedsTarget
      else
        match validateTargets u.targets with
        | .error e => .error e
        | .ok _ => validateUpstreams rest (u.name :: seen)

/-- Path-rule checks inside the route loop of `Validate`. -/
def validatePathRules : List PathRule → Except VError Unit
  | [] => .ok ()
  | p :: rest =>
      if p.path = [] then .error .routePathRequired
      else if p.ptype ≠ tExact ∧ p.ptype ≠ tPfx then .error .routePathTypeInvalid
      else validatePathRules rest

/-- The legacy-route loop of `Validate`. -/
def validateRoutes (upstreamNames : List Str) : List RouteCfg → Except VError Unit
  | [] => .ok ()
  | r :: rest =>
      if r.name = [] then .error .routeNameRequired
      else if r.upstream = [] then .error .routeUpstreamRequired
      else if r.upstream ∉ upstreamNames then .error .routeUnknownUpstream
      else if r.paths = [] then .error .routeNeedsPathRule
      else
        match validatePathRules r.paths with
        | .error e => .error e
        | .ok _ =>
            match validateRw r.rewrite with
            | .error e => .error e
            | .ok _ => validateRoutes upstreamNames rest

/-- Go `validateListeners`, threading seen names. -/
def validateListeners : List Listener → List Str → Except VError Unit
  | [], _ => .ok ()
  | l :: rest, seen =>
      if l.name = [] then .error .listenerNameRequired
      else if l.name ∈ seen then .error .dupListenerName
      else if l.addr = [] then .error .listenerAddrRequired
      else validateListeners rest (l.name :: seen)

/-- Endpoint checks inside `validateClusters`. -/
def validateEndpoints : List ClusterEndpoint → Except VError Unit
  | [] => .ok ()
  | ep :: rest =>
      if ep.url = [] ∧ ep.target = [] ∧ ep.addr = [] then
        .error .endpointAddressRequired
      else validateEndpoints rest

/-- Go `validateClusters`: returns the accumulated cluster-name set (the Go
`clusterNames` map). -/
def validateClusters : List ClusterCfg → List Str → Except VError (List Str)
  | [], seen => .ok seen
  | c :: rest, seen =>
      if c.name = [] then .error .clusterNameRequired
      else if c.name ∈ seen then .error .dupClusterName
      else if c.ctype ≠ [] ∧ c.ctype ≠ tHttp ∧ c.ctype ≠ tGrpc ∧ c.ctype ≠ tDubbo then
        .error .clusterTypeInvalid
      else if c.endpoints = [] then .error .clusterNeedsEndpoint
      else
        match validateEndpoints c.endpoints with
        | .error e => .error e
        | .ok _ => validateClusters rest (c.name :: seen)

/-- Filter checks inside `validateRoutesV2`. -/
def validateFilters : List RouteFilter → Except VError Unit
  | [] => .ok ()
  | f :: rest =>
      if f.ftype = [] then .error .filterTypeRequired
      else if f.ftype = tStripPfx ∧ argGet f.args tPfx = [] then
        .error .stripPfxNeedsArg
      else if f.ftype = tHeaderSet ∧ argGet f.args tKey = [] then
        .error .headerSetNeedsArg
      else validateFilters rest

/-- The loop body of Go `validateRoutesV2` for a single route.  Note the
cluster-reference cross-check is skipped entirely when `clusterNames` is
empty (`len(clusterNames) > 0 && ...`). -/
def validateRouteV2One (clusterNames : List Str) (r : RouteV2) : Except VError Unit :=
  if r.name = [] then .error .routeV2NameRequired
  else if r.rmatch.path = [] ∧ r.rmatch.pathPfx = [] then
    .error .routeV2MatchRequired
  else if r.upstream.cluster = [] then .error .routeV2ClusterRequired
  else if clusterNames ≠ [] ∧ r.upstream.cluster ∉ clusterNames then
    .error .routeV2UnknownCluster
  else
    match validateFilters r.filters with
    | .error e => .error e
    | .ok _ =>
        match r.upstream.grpc with
        | some g =>
            if g.service = [] then .error .upGrpcServiceRequired
            else if g.method = [] then .error .upGrpcMethodRequired
            else
              match r.upstream.dubbo with
              | some d =>
                  if d.iface = [] then .error .upDubboInterfaceRequired
                  else if d.method = [] then .error .upDubboMethodRequired
                  else .ok ()
              | none => .ok ()
        | none =>
            match r.upstream.dubbo with
            | some d =>
                if d.iface = [] then .error .upDubboInterfaceRequired
                else if d.method = [] then .error .upDubboMethodRequired
                else .ok ()
            | none => .ok ()

/-- Go `validateRoutesV2`: the per-route checks applied in order, stopping on
the first error. -/
def validateRoutesV2 (clusterNames : List Str) : List RouteV2 → Except VError Unit
  | [] => .ok ()
  | r :: rest =>
      match validateRouteV2One clusterNames r with
      | .error e => .error e
      | .ok _ => validateRoutesV2 clusterNames rest

/-- Go `config.Validate` (the nil-config check does not arise: `Config` is a
value here). -/
def validate (cfg : Config) : Except VError Unit :=
  if cfg.server.listen = [] ∧ cfg.listeners = [] then
    .error .serverListenRequired
  else
    match validateUpstreams cfg.upstreams [] with
    | .error e => .error e
    | .ok upstreamNames =>
        match validateRoutes upstreamNames cfg.routes with
        | .error e => .error e
        | .ok _ =>
            match validateListeners cfg.listeners [] with
            | .error e => .error e
            | .ok _ =>
                match validateClusters cfg.clusters [] with
                | .error e => .error e
                | .ok clusterNames => validateRoutesV2 clusterNames cfg.routesV2

/-! ## Compiled runtime config (internal/runtime/compiled.go, Compile) -/

/-- Go `runtime.CompiledHeaderMatch`. -/
structure CompiledHeaderMatch where
  hname : Str
  exact : Str
  contains : Str
deriving Repr, DecidableEq

/-- Go `runtime.CompiledMatch`: `methods = none` means match all. -/
structure CompiledMatch where
  methods : Option (List Str)
  path : Str
  pathPfx : Str
  headers : List CompiledHeaderMatch
deriving Repr, DecidableEq

/-- Compiled filters (`runtime.Filter` values produced by the registry). -/
inductive CFilter where
  | stripPfx (pfx : Str)
  | headerSet (key value : Str)
deriving Repr, DecidableEq

/-- Go `runtime.RouteUpstreamConfig`. -/
structure CRouteUpstream where
  clusterName : Str
  grpc : Option RouteUpstreamGRPC
  dubbo : Option RouteUpstreamDubbo
deriving Repr, DecidableEq

/-- Go `runtime.CompiledRoute`. -/
structure CompiledRoute where
  name : Str
  cmatch : CompiledMatch
  filters : List CFilter
  upstream : CRouteUpstream
  timeoutMs : Int
deriving Repr, DecidableEq

/-- Go `runtime.prefixRouteEntry`. -/
structure PfxRouteEntry where
  pfx : Str
  route : CompiledRoute
deriving Repr, DecidableEq

/-- Go `runtime.RouterIndex`: the exact map is an association list keyed by
METHOD|path. -/
structure RouterIndex where
  exactRoutes : List (Str × CompiledRoute)
  pfxRoutes : List PfxRouteEntry
deriving Repr, DecidableEq

/-- Go `runtime.CompiledConfig` (listeners/filter registry carried elsewhere;
clusters as an association list). -/
structure CompiledConfig where
  router : RouterIndex
  clusters : List (Str × CompiledClusterCore)
  version : Nat
deriving Repr, DecidableEq

/-- An HTTP request as the routers see it: method, host (as in `r.Host`),
URL path, and headers (keys assumed canonical). -/
structure Req where
  method : Str
  host : Str
  path : Str
  headers : List (Str × Str)
deriving Repr, DecidableEq

/-- Go `r.Header.Get(name)`: first value or the empty string. -/
def headerGet (r : Req) (name : Str) : Str := (lookupA r.headers name).getD []

/-- Go `strings.Contains(s, sub)`. -/
def strContains : Str → Str → Bool
  | [], sub => hasPfx [] sub
  | c :: rest, sub => hasPfx (c :: rest) sub || strContains rest sub

/-- The method-set check of `CompiledMatch.Matches`: a `nil` set matches every
method. -/
def methodOk (ms : Option (List Str)) (meth : Str) : Bool :=
  match ms with
  | none => true
  | some l => l.contains meth

/-- Go `CompiledMatch.Matches`: method set, exact path, path prefix and header
constraints, each skipped when unset. -/
def cmMatches (m : CompiledMatch) (r : Req) : Bool :=
  methodOk m.methods r.method &&
  (m.path = [] || r.path = m.path) &&
  (m.pathPfx = [] || hasPfx r.path m.pathPfx) &&
  m.headers.all (fun h =>
    (h.exact = [] || headerGet r h.hname = h.exact) &&
    (h.contains = [] || strContains (headerGet r h.hname) h.contains))

/-- One exact-map probe of `RouterIndex.Match`: a hit that fails `Matches`
falls through. -/
def exactProbe (ri : RouterIndex) (r : Req) (key : Str) : Option CompiledRoute :=
  match lookupA ri.exactRoutes key with
  | some rt => if cmMatches rt.cmatch r then some rt else none
  | none => none

/-- Go `RouterIndex.Match`: exact probe on METHOD|path, then on |path
(method-wildcard), then the first matching prefix entry. -/
def riMatch (ri : RouterIndex) (r : Req) : Option CompiledRoute :=
  match exactProbe ri r (r.method ++ '|' :: r.path) with
  | some rt => some rt
  | none =>
      match exactProbe ri r ('|' :: r.path) with
      | some rt => some rt
      | none =>
          ((ri.pfxRoutes.find? fun pe =>
              hasPfx r.path pe.pfx && cmMatches pe.route.cmatch r).map
            fun pe => pe.route)

/-- Go `FilterRegistry.Compile` errors. -/
inductive CError where
  | stripPfxNeedsArg
  | headerSetNeedsArg
  | unknownFilterType
deriving Repr, DecidableEq

/-- Go `FilterRegistry.Compile` with the two built-in factories
(`newStripPrefixFilter`, `newHeaderSetFilter`). -/
def compileFilter (rf : RouteFilter) : Except CError CFilter :=
  if rf.ftype = tStripPfx then
    let p := argGet rf.args tPfx
    if p = [] then .error .stripPfxNeedsArg else .ok (.stripPfx p)
  else if rf.ftype = tHeaderSet then
    let k := argGet rf.args tKey
    if k = [] then .error .headerSetNeedsArg
    else .ok (.headerSet k (argGet rf.args
      ['v', 'a', 'l', 'u', 'e']))
  else .error .unknownFilterType

/-- The filter loop in `Compile`. -/
def compileFilters : List RouteFilter → Except CError (List CFilter)
  | [] => .ok []
  | rf :: rest =>
      match compileFilter rf with
      | .error e => .error e
      | .ok f =>
          match compileFilters rest with
          | .error e => .error e
          | .ok fs => .ok (f :: fs)

/-- The per-route compilation step of `Compile` (match, filters, upstream). -/
def compileRoute (rv : RouteV2) : Except CError CompiledRoute :=
  match compileFilters rv.filters with
  | .error e => .error e
  | .ok fs =>
      .ok
        { name := rv.name
          cmatch :=
            { methods := if rv.rmatch.methods = [] then none else some rv.rmatch.methods
              path := rv.rmatch.path
              pathPfx := rv.rmatch.pathPfx
              headers := rv.rmatch.headers.map fun h =>
                ⟨h.hname, h.exact, h.contains⟩ }
          filters := fs
          upstream :=
            { clusterName := rv.upstream.cluster
              grpc := rv.upstream.grpc
              dubbo := rv.upstream.dubbo }
          timeoutMs := rv.upstream.timeoutMs }

/-- The exact-map entries contributed by one route in `Compile`: one entry per
method when a method set exists, else a single method-wildcard |path entry;
none when the route has no exact path. -/
def exactEntriesOf (rv : RouteV2) (cr : CompiledRoute) : List (Str × CompiledRoute) :=
  if rv.rmatch.path = [] then []
  else if rv.rmatch.methods = [] then [('|' :: rv.rmatch.path, cr)]
  else rv.rmatch.methods.map fun m => (m ++ '|' :: rv.rmatch.path, cr)

/-- The prefix entries contributed by one route in `Compile`, including the
catch-all `/` entry for routes with neither path nor prefix. -/
def pfxEntriesOf (rv : RouteV2) (cr : CompiledRoute) : List PfxRouteEntry :=
  (if rv.rmatch.pathPfx ≠ [] then [⟨rv.rmatch.pathPfx, cr⟩] else []) ++
  (if rv.rmatch.path = [] ∧ rv.rmatch.pathPfx = [] then [⟨['/'], cr⟩] else [])

/-- The route loop of `Compile`.  Later routes overwrite earlier ones in the
Go exact map, so their entries are placed in front of the association list. -/
def compileRoutes : List RouteV2 →
    Except CError (List (Str × CompiledRoute) × List PfxRouteEntry)
  | [] => .ok ([], [])
  | rv :: rest =>
      match compileRoute rv with
      | .error e => .error e
      | .ok cr =>
          match compileRoutes rest with
          | .error e => .error e
          | .ok (ex, pf) => .ok (ex ++ exactEntriesOf rv cr, pfxEntriesOf rv cr ++ pf)

/-- Byte-wise lexicographic order on Go strings (used by the prefix sort
tiebreak). -/
def strLt : Str → Str → Bool
  | [], [] => false
  | [], _ :: _ => true
  | _ :: _, [] => false
  | a :: as, b :: bs =>
      if a.toNat < b.toNat then true
      else if b.toNat < a.toNat then false
      else strLt as bs

/-- The sort.Slice comparator in `Compile`: longer prefix first, lexicographic
tiebreak. -/
def peBefore (a b : PfxRouteEntry) : Bool :=
  if a.pfx.length ≠ b.pfx.length then b.pfx.length < a.pfx.length
  else strLt a.pfx b.pfx

/-- Ordered insertion for the prefix sort. -/
def insertPE (a : PfxRouteEntry) : List PfxRouteEntry → List PfxRouteEntry
  | [] => [a]
  | b :: rest => if peBefore a b then a :: b :: rest else b :: insertPE a rest

/-- The prefix-list sort of `Compile` (insertion sort with the same
comparator; `sort.Slice` is unstable, so any order consistent with the
comparator refines it). -/
def sortPE (l : List PfxRouteEntry) : List PfxRouteEntry := l.foldr insertPE []

/-- The cluster loop of `Compile`: defaults `lb` to round_robin and `type`
to http.  Go map insertion order is modelled by appending later clusters. -/
def compileClusters : List ClusterCfg → List (Str × CompiledClusterCore)
  | [] => []
  | c :: rest =>
      compileClusters rest ++
        [(c.name,
          { name := c.name
            ctype := if c.ctype = [] then tHttp else c.ctype
            endpoints := c.endpoints
            lb := if c.lb = [] then tRoundRobin else c.lb })]

/-- Go `runtime.Compile`. -/
def compile (cfg : Config) (version : Nat) : Except CError CompiledConfig :=
  match compileRoutes cfg.routesV2 with
  | .error e => .error e
  | .ok (ex, pf) =>
      .ok
        { router := { exactRoutes := ex, pfxRoutes := sortPE pf }
          clusters := compileClusters cfg.clusters
          version := version }

/-! ## Legacy router (proxy Router, part_013) -/

/-- Go `routeKey(host, path) = host + "|" + path`. -/
def routeKey (host path : Str) : Str := host ++ '|' :: path

/-! ## Concrete instances used by counterexamples and witnesses -/

/-- The literal GET. -/
def mGET : Str := ['G', 'E', 'T']

/-- The path /api. -/
def pApi : Str := ['/', 'a', 'p', 'i']

/-- The path /api/x. -/
def pApiX : Str := ['/', 'a', 'p', 'i', '/', 'x']

/-- The path /apix. -/
def pApix : Str := ['/', 'a', 'p', 'i', 'x']

/-- The path /x. -/
def pSlashX : Str := ['/', 'x']

/-- A compiled match carrying only the path prefix /api. -/
def cmApi : CompiledMatch := ⟨none, [], pApi, []⟩

/-- A GET request on a given path with no host and no headers. -/
def reqOn (p : Str) : Req := ⟨mGET, [], p, []⟩

/-- A circuit breaker driven from `New` into the Open state while
`successCount = 1`: threshold-1 failure opens it, a timed-out `Allow` probes
it Half-Open, one success (below the success threshold 2) counts, and a
failure re-opens it at instant 200. -/
def cbProbe : CircuitBreaker :=
  (((((CircuitBreaker.new ['x'] 1 2 100).recordFailure 0).allow 100).2.recordSuccess
    ).recordFailure 200)

/-- A freshly opened breaker used by the amended-claim witness. -/
def cbOpen : CircuitBreaker := (CircuitBreaker.new ['y'] 1 1 50).recordFailure 0

/-- First endpoint of the pick_first example cluster. -/
def epA : ClusterEndpoint := ⟨['u', '1'], [], []⟩

/-- Second endpoint of the pick_first example cluster. -/
def epB : ClusterEndpoint := ⟨['u', '2'], [], []⟩

/-- A two-endpoint cluster whose load-balancer tag is pick_first. -/
def clPick : CompiledClusterCore := ⟨['c'], tGrpc, [epA, epB], tPickFirst⟩

/-- A middleware returning a handler that panics immediately. -/
def mwPanic : MMiddleware := fun _ => fun _ w => (w, true)

/-- A terminal handler that responds 200. -/
def hOk : MHandler := fun _ w => (writeHeader w 200, false)

/-- A terminal handler that panics. -/
def hPanic : MHandler := fun _ w => (w, true)

/-- An empty request for the middleware examples. -/
def mreq0 : MReq := ⟨[]⟩

/-- A writer on which no response has been started. -/
def w0 : WState := ⟨none, []⟩

/-- Rate limiter with rate 3 and window 60 (nanoseconds). -/
def limW : Limiter := ⟨3, 60⟩

/-- The empty rate-limit key. -/
def keyW : RKey := []

/-- Rate-1 limiter whose window is 2^60 nanoseconds. -/
def limC : Limiter := ⟨1, 1152921504606846976⟩

/-- Limiter state after one `Allow` call at t = 0: the key holds ⟨1, 0, 0⟩. -/
def stA : LimiterState := (limC.allow emptyLimiterState 0 keyW).2

/-- Limiter state after a second `Allow` call at t = 2^60: a full window has
elapsed, so the window rolls to ⟨0, 1, 2^60⟩ (and the call is denied). -/
def stB : LimiterState := (limC.allow stA 1152921504606846976 keyW).2

/-- The example compiled route used by the router-index witness. -/
def rtC3 : CompiledRoute :=
  ⟨['r'], ⟨some [mGET], pSlashX, [], []⟩, [], ⟨['A'], none, none⟩, 0⟩

/-- A router index with one exact GET|/x entry. -/
def riEx : RouterIndex := ⟨[(mGET ++ '|' :: pSlashX, rtC3)], []⟩

/-- A configuration that passes `Validate` although its only route references
cluster A while no clusters are defined: with an empty `clusterNames` the
cross-check in `validateRoutesV2` is skipped. -/
def cfg0 : Config :=
  { server := ⟨[':', '8', '0']⟩
    upstreams := []
    routes := []
    listeners := []
    clusters := []
    routesV2 := [⟨['r'], ⟨[], pSlashX, [], []⟩, [], ⟨['A'], 0, none, none⟩⟩] }

/-- The snapshot compiled from `cfg0`. -/
def snap0 : CompiledConfig :=
  match compile cfg0 1 with
  | .ok s => s
  | .error _ => ⟨⟨[], []⟩, [], 0⟩

/-- A GET /x request. -/
def reqX : Req := ⟨mGET, [], pSlashX, []⟩

/-- Like `cfg0` but with cluster A defined, for the amended-claim witness. -/
def cfg1 : Config :=
  { cfg0 with
    clusters := [⟨['A'], tHttp, [⟨['u'], [], []⟩], [], none, none, none⟩] }

/-- The snapshot compiled from `cfg1`. -/
def snap1 : CompiledConfig :=
  match compile cfg1 1 with
  | .ok s => s
  | .error _ => ⟨⟨[], []⟩, [], 0⟩

/-- The route that `snap1` matches for GET /x. -/
def rtW : CompiledRoute :=
  match riMatch snap1.router reqX with
  | some rt => rt
  | none => rtC3

/-! # Theorems -/

/-! ## Rate limiter lemmas (shared helpers for claim 1) -/

/-- The fuel-based logarithm brackets its argument between consecutive powers
of two whenever the fuel suffices. -/
theorem log2Aux_spec : ∀ (fuel n : ℕ), 1 ≤ n → n ≤ fuel →
    2 ^ log2Aux fuel n ≤ n ∧ n < 2 ^ (log2Aux fuel n + 1) := by
  intro fuel
  induction fuel with
  | zero => omega
  | succ fuel ih =>
      intro n h1 hle
      by_cases hn1 : n ≤ 1
      · have hn : n = 1 := by omega
        subst hn
        simp [log2Aux]
      · obtain ⟨hlo, hhi⟩ := ih (n / 2) (by omega) (by omega)
        have hunf : log2Aux (fuel + 1) n = log2Aux fuel (n / 2) + 1 := by
          simp [log2Aux, hn1]
        rw [hunf]
        have hp1 : (2 : ℕ) ^ (log2Aux fuel (n / 2) + 1) =
            2 ^ log2Aux fuel (n / 2) * 2 := pow_succ 2 _
        have hp2 : (2 : ℕ) ^ (log2Aux fuel (n / 2) + 1 + 1) =
            2 ^ (log2Aux fuel (n / 2) + 1) * 2 := pow_succ 2 _
        omega

/-- `nlog2` brackets a positive natural between consecutive powers of two. -/
theorem nlog2_spec (n : ℕ) (h : 1 ≤ n) :
    2 ^ nlog2 n ≤ n ∧ n < 2 ^ (nlog2 n + 1) :=
  log2Aux_spec n n h le_rfl

/-- Rounding an exact fraction returns the quotient. -/
theorem roundNE_exact (sn sd : ℕ) (h0 : 0 < sd) (h : sd ∣ sn) :
    roundNE sn sd = sn / sd := by
  have hm : sn % sd = 0 := Nat.mod_eq_zero_of_dvd h
  unfold roundNE
  rw [hm]
  simp [h0]

/-- Binary64 rounding fixes zero. -/
theorem fl_zero : fl 0 = 0 := by simp [fl]

/-- Binary64 rounding is the identity on naturals below 2^53 (the exactly
representable integer range). -/
theorem fl_nat (n : ℕ) (h : n < 2 ^ 53) : fl (n : ℚ) = (n : ℚ) := by
  rcases Nat.eq_zero_or_pos n with h0 | hpos
  · subst h0
    simp [fl]
  have hqne : (n : ℚ) ≠ 0 := by exact_mod_cast hpos.ne'
  have hnum : (n : ℚ).num = (n : ℤ) := Rat.num_natCast n
  have hden : (n : ℚ).den = 1 := Rat.den_natCast n
  have hnneg : ¬ (n : ℚ).num < 0 := by
    rw [hnum]
    omega
  obtain ⟨hlo, hhi⟩ := nlog2_spec n hpos
  have hA52 : nlog2 n ≤ 52 := by
    by_contra hA
    push_neg at hA
    have hp : (2 : ℕ) ^ 53 ≤ 2 ^ nlog2 n := Nat.pow_le_pow_right (by norm_num) hA
    omega
  have hone : nlog2 1 = 0 := rfl
  unfold fl
  rw [if_neg hqne, if_neg hnneg]
  have hab : (n : ℚ).num.natAbs = n := by
    rw [hnum]
    simp
  rw [hab, hden]
  unfold flPos
  rw [hone]
  rw [if_pos (by simpa using hlo)]
  have hsplit : (2 : ℕ) ^ (52 + 0) = 2 ^ (52 - nlog2 n) * 2 ^ nlog2 n := by
    rw [← pow_add]
    congr 1
    omega
  have hdvd : (1 * 2 ^ nlog2 n) ∣ (n * 2 ^ (52 + 0)) := by
    rw [hsplit, one_mul]
    exact Dvd.dvd.mul_left (dvd_mul_left _ _) n
  have hrm : roundNE (n * 2 ^ (52 + 0)) (1 * 2 ^ nlog2 n) =
      n * 2 ^ (52 - nlog2 n) := by
    rw [roundNE_exact _ _ (by positivity) hdvd, hsplit, one_mul, ← mul_assoc,
      Nat.mul_div_cancel _ (by positivity)]
  rw [hrm]
  push_cast
  rw [div_eq_mul_inv, ← mul_assoc]
  rw [mul_assoc ((n : ℚ)) _ _, ← pow_add]
  have hexp : 52 - nlog2 n + nlog2 n = 52 + 0 := by omega
  rw [hexp]
  field_simp
  norm_num

/-- Looking up a key immediately after storing its window returns that
window. -/
theorem find_store_self (st : LimiterState) (key : RKey) (w : Window) :
    (st.store (shardIdx key) key w).find key = some w := by
  simp [LimiterState.store, LimiterState.find]

/-- `Allow` on a key with no window creates `⟨1, 0, now⟩` and admits. -/
theorem allow_fresh (l : Limiter) (st : LimiterState) (now : Int) (key : RKey)
    (h : st.find key = none) :
    l.allow st now key = (true, st.store (shardIdx key) key ⟨1, 0, now⟩) := by
  have h' : st.shards (shardIdx key) key = none := h
  simp [Limiter.allow, h']

/-- `Allow` on an existing window compares the float64 estimate against the
float64 rate and stores the rolled (and, on admission, incremented) window. -/
theorem allow_some_eq (l : Limiter) (st : LimiterState) (now : Int) (key : RKey)
    (w : Window) (hw : st.find key = some w) :
    l.allow st now key =
      if fl ((l.rate : ℚ)) ≤ flEstimate l w now then
        (false, st.store (shardIdx key) key (rollWindow l w now))
      else
        (true, st.store (shardIdx key) key
          ⟨(rollWindow l w now).count + 1, (rollWindow l w now).prevCount,
            (rollWindow l w now).currStart⟩) := by
  have h' : st.shards (shardIdx key) key = some w := hw
  simp only [Limiter.allow, h', flEstimate, flWeight]

/-- The admission decision on an existing window is exactly the strict
comparison of the float64 estimate with the float64 rate. -/
theorem allow_fst_iff (l : Limiter) (st : LimiterState) (now : Int) (key : RKey)
    (w : Window) (hw : st.find key = some w) :
    (l.allow st now key).1 = true ↔ flEstimate l w now < fl ((l.rate : ℚ)) := by
  rw [allow_some_eq l st now key w hw]
  by_cases hE : fl ((l.rate : ℚ)) ≤ flEstimate l w now
  · simp [hE, not_lt.mpr hE]
  · simp [hE, not_le.mp hE]

/-- A same-instant window `⟨n, 0, now⟩` does not roll over (for a positive
window size) and its float64 estimate is exactly `n` when `n < 2^53`, so
`Allow` admits exactly when `n < fl rate` and increments the count. -/
theorem allow_count (l : Limiter) (st : LimiterState) (now : Int) (key : RKey)
    (n : Nat) (hW : 0 < l.window) (hn : n < 2 ^ 53)
    (h : st.find key = some ⟨n, 0, now⟩) :
    l.allow st now key =
      if fl ((l.rate : ℚ)) ≤ (n : ℚ) then
        (false, st.store (shardIdx key) key ⟨n, 0, now⟩)
      else
        (true, st.store (shardIdx key) key ⟨n + 1, 0, now⟩) := by
  have h0 : ¬ l.window ≤ (0 : Int) := by omega
  have hroll : rollWindow l ⟨n, 0, now⟩ now = ⟨n, 0, now⟩ := by
    simp [rollWindow, sub_self, h0]
  have hest : flEstimate l ⟨n, 0, now⟩ now = (n : ℚ) := by
    simp [flEstimate, hroll, fl_zero, fl_nat n hn]
  rw [allow_some_eq l st now key _ h, hroll, hest]

/-- After `n ≤ rate` same-instant calls from the empty state the key's window
is `⟨n, 0, now⟩` (and absent for `n = 0`), for rates in the float64-exact
integer range. -/
theorem callState_find (l : Limiter) (now : Int) (key : RKey) (r : Nat)
    (hW : 0 < l.window) (hr53 : r < 2 ^ 53) (hr : l.rate = (r : Int)) :
    ∀ n : Nat, n ≤ r →
      (callState l now key n).find key =
        if n = 0 then none else some ⟨n, 0, now⟩ := by
  intro n
  induction n with
  | zero =>
      intro _
      simp [callState, emptyLimiterState, LimiterState.find]
  | succ n ih =>
      intro hn
      have hfind := ih (by omega)
      show ((l.allow (callState l now key n) now key).2).find key = _
      by_cases hn0 : n = 0
      · subst hn0
        rw [if_pos rfl] at hfind
        rw [allow_fresh l _ now key hfind]
        simp [find_store_self]
      · rw [if_neg hn0] at hfind
        have hflr : fl ((l.rate : ℚ)) = (r : ℚ) := by
          rw [hr]
          push_cast
          exact fl_nat r hr53
        have hlt : ¬ fl ((l.rate : ℚ)) ≤ (n : ℚ) := by
          rw [hflr]
          push_neg
          exact_mod_cast (by omega : n < r)
        rw [allow_count l _ now key n hW (lt_of_le_of_lt (by omega : n ≤ r) hr53)
          hfind, if_neg hlt]
        simp [find_store_self]

/-- C1 (corrected): for every key and positive-window configuration, a key
with no window is created as `⟨1, 0, now⟩` and admitted; an existing window is
admitted iff the float64-evaluated estimate is strictly below the
float64-converted rate — not iff the exact estimate
`prev·(1 − elapsed/window) + curr` is below the rate, which fails when float64
rounding collapses the two sides (see the counterexample); and for
same-instant calls on a fresh window with rate r in [1, 2^53) — the range
where the float64 arithmetic is exact — the n-th call is admitted for every
n ≤ r while the (r+1)-th call is denied. -/
theorem claim1_rate_limiter (l : Limiter) (st : LimiterState) (now : Int)
    (key : RKey) (hW : 0 < l.window) :
    (st.find key = none →
      (l.allow st now key).1 = true ∧
      (l.allow st now key).2.find key = some ⟨1, 0, now⟩) ∧
    (∀ w, st.find key = some w →
      ((l.allow st now key).1 = true ↔ flEstimate l w now < fl ((l.rate : ℚ)))) ∧
    (∀ r : Nat, 1 ≤ r → r < 2 ^ 53 → l.rate = (r : Int) →
      (∀ n : Nat, 1 ≤ n → n ≤ r → callResult l now key n = true) ∧
      callResult l now key (r + 1) = false) := by
  refine ⟨?_, ?_, ?_⟩
  · intro h
    rw [allow_fresh l st now key h]
    exact ⟨rfl, find_store_self st key _⟩
  · intro w hw
    exact allow_fst_iff l st now key w hw
  · intro r hr1 hr53 hrr
    have hflr : fl ((l.rate : ℚ)) = (r : ℚ) := by
      rw [hrr]
      push_cast
      exact fl_nat r hr53
    constructor
    · intro n hn1 hnr
      obtain ⟨m, rfl⟩ : ∃ m, n = m + 1 := ⟨n - 1, by omega⟩
      show (l.allow (callState l now key (m + 1 - 1)) now key).1 = true
      simp only [Nat.add_sub_cancel]
      have hfind := callState_find l now key r hW hr53 hrr m (by omega)
      by_cases hm : m = 0
      · subst hm
        rw [if_pos rfl] at hfind
        rw [allow_fresh l _ now key hfind]
      · rw [if_neg hm] at hfind
        have hlt : ¬ fl ((l.rate : ℚ)) ≤ (m : ℚ) := by
          rw [hflr]
          push_neg
          exact_mod_cast (by omega : m < r)
        rw [allow_count l _ now key m hW
          (lt_of_le_of_lt (by omega : m ≤ r) hr53) hfind, if_neg hlt]
    · show (l.allow (callState l now key (r + 1 - 1)) now key).1 = false
      simp only [Nat.add_sub_cancel]
      have hfind := callState_find l now key r hW hr53 hrr r le_rfl
      rw [if_neg (by omega : ¬ r = 0)] at hfind
      have hge : fl ((l.rate : ℚ)) ≤ (r : ℚ) := by
        rw [hflr]
      rw [allow_count l _ now key r hW hr53 hfind, if_pos hge]

/-- C1 (witness): with rate 3 and window 60, the third same-instant call is
admitted and the fourth is denied. -/
theorem claim1_witness :
    (0 : Int) < limW.window ∧
    callResult limW 0 keyW 3 = true ∧
    callResult limW 0 keyW 4 = false := by
  have h := (claim1_rate_limiter limW emptyLimiterState 0 keyW (by decide)).2.2 3
    (by decide) (by norm_num) (by decide)
  exact ⟨by decide, h.1 3 (by decide) (by decide), h.2⟩

/-- C1 (counterexample): with rate 1 and a 2^60-nanosecond window, the state
reached by `Allow` calls at t = 0 (admitted) and t = 2^60 holds the window
⟨0, 1, 2^60⟩ for the key; at t = 2^60 + 1 the exact weighted estimate
1·(1 − 1/2^60) + 0 is strictly below the rate, so the claim says the call is
admitted — but `Allow` denies it: the program's float64 weight
1.0 − float64(1)/float64(2^60) rounds up to exactly 1.0, making the float64
estimate equal float64(rate). -/
theorem claim1_counterexample :
    (limC.allow emptyLimiterState 0 keyW).1 = true ∧
    stB.find keyW = some ⟨0, 1, 1152921504606846976⟩ ∧
    specWindowEstimate limC ⟨0, 1, 1152921504606846976⟩ 1152921504606846977 <
      (limC.rate : ℚ) ∧
    (limC.allow stB 1152921504606846977 keyW).1 = false := by
  refine ⟨by with_unfolding_all rfl, by with_unfolding_all rfl, ?_,
    by with_unfolding_all rfl⟩
  norm_num [specWindowEstimate, rollWindow, rollElapsed, limC]

/-- C2 (counterexample): a circuit breaker reachable from `New` by recorded
events sits in the Open state with `successCount = 1`; the timed-out `Allow`
call transitions it to Half-Open and returns admit=true, but `successCount`
stays 1 — it is not reset to zero as the claim states. -/
theorem claim2_counterexample :
    cbProbe.state = .opened ∧
    cbProbe.timeout ≤ 300 - cbProbe.lastFailure ∧
    (cbProbe.allow 300).1 = true ∧
    (cbProbe.allow 300).2.state = .halfOpen ∧
    (cbProbe.allow 300).2.successCount ≠ 0 := by decide

/-- C2 (amended): for every breaker in the Open state, an `Allow` call with
`now - last_failure ≥ open_timeout` returns admit=true and transitions to
Half-Open, leaving every counter (including `success_count`) unchanged. -/
theorem claim2_open_allow (cb : CircuitBreaker) (now : Int)
    (hs : cb.state = .opened) (ht : cb.timeout ≤ now - cb.lastFailure) :
    cb.allow now = (true, { cb with state := .halfOpen }) := by
  obtain ⟨nm, s, fc, sc, ft, sth, tmo, lf⟩ := cb
  cases hs
  simp [CircuitBreaker.allow, ht]

/-- C2 (witness): the amended transition evaluated on a freshly opened
breaker at instant 60. -/
theorem claim2_witness :
    cbOpen.state = .opened ∧ cbOpen.timeout ≤ 60 - cbOpen.lastFailure ∧
    cbOpen.allow 60 = (true, { cbOpen with state := .halfOpen }) :=
  ⟨by decide, by decide, claim2_open_allow cbOpen 60 (by decide) (by decide)⟩

/-- C5: the gRPC rewrite frames every inbound body as one zero byte, the
big-endian 32-bit body length, then the body verbatim; Content-Length becomes
the framed length (original length + 5); stripping the 5-byte prefix restores
the body, and the four length bytes decode to the body length. -/
theorem claim5_grpc_framing (b : List Nat) (cl : Int) :
    applyGRPCRewriteBody (some b) cl =
      (some (0 :: uint32be b.length ++ b), (b.length : Int) + 5) ∧
    (grpcFrame b).drop 5 = b ∧
    (grpcFrame b).length = b.length + 5 ∧
    (b.length < 2 ^ 32 → beNat (((grpcFrame b).drop 1).take 4) = b.length) := by
  refine ⟨?_, rfl, ?_, ?_⟩
  · simp [applyGRPCRewriteBody, grpcFrame, uint32be]
    omega
  · simp [grpcFrame, uint32be]
  · intro h
    show beNat (uint32be b.length) = b.length
    simp [beNat, uint32be]
    omega

/-- C5 (witness): the framing round-trip evaluated on the body [1, 2, 3]. -/
theorem claim5_witness :
    [1, 2, 3].length < 2 ^ 32 ∧
    beNat (((grpcFrame [1, 2, 3]).drop 1).take 4) = [1, 2, 3].length ∧
    (grpcFrame [1, 2, 3]).drop 5 = [1, 2, 3] :=
  ⟨by decide, (claim5_grpc_framing [1, 2, 3] 0).2.2.2 (by decide),
    (claim5_grpc_framing [1, 2, 3] 0).2.1⟩

/-- C6 (counterexample): the prefix rule /api matches /api and /api/x as the
claim states, but it also matches /apix — compiled prefix matching (and the
legacy router's prefix scan) is plain `strings.HasPrefix` with no
segment-boundary check, refuting the claimed non-match. -/
theorem claim6_counterexample :
    cmApi.pathPfx = pApi ∧
    cmMatches cmApi (reqOn pApi) = true ∧
    cmMatches cmApi (reqOn pApiX) = true ∧
    cmMatches cmApi (reqOn pApix) = true ∧
    hasPfx pApix pApi = true := by decide

/-- C6 (amended): a prefix-only compiled match accepts a request exactly when
the configured prefix is a plain string prefix of the request path; in
particular /api matches /api, /api/x and also /apix. -/
theorem claim6_pfx_match (pfx m h p : Str) (hp : pfx ≠ []) :
    cmMatches ⟨none, [], pfx, []⟩ ⟨m, h, p, []⟩ = hasPfx p pfx := by
  simp [cmMatches, methodOk, hp]

/-- C6 (witness): the amended equivalence evaluated at prefix /api and
request path /apix. -/
theorem claim6_witness :
    pApi ≠ [] ∧
    cmMatches ⟨none, [], pApi, []⟩ ⟨mGET, [], pApix, []⟩ = hasPfx pApix pApi :=
  ⟨by decide, claim6_pfx_match pApi mGET [] pApix (by decide)⟩

/-- C7 (counterexample): on a two-endpoint cluster tagged pick_first, the
second selection returns the second endpoint, not the first — `NextEndpoint`
ignores the load-balancer tag (and no per-endpoint health flag exists),
refuting the claim that repeated calls always return the first endpoint. -/
theorem claim7_counterexample :
    clPick.lb = tPickFirst ∧
    (nextEndpoint clPick 0).1 = some epA ∧
    (nextEndpoint clPick 1).1 = some epB ∧
    epB ≠ epA := by decide

/-- C7 (amended): endpoint selection is plain round-robin over all configured
endpoints regardless of the load-balancer tag: the call with counter value n
returns endpoint n mod len, and `none` is returned only for an empty endpoint
list. -/
theorem claim7_round_robin (c : CompiledClusterCore) (counter : Nat)
    (hc : counter < 2 ^ 64) :
    (c.endpoints = [] → nextEndpoint c counter = (none, counter)) ∧
    (c.endpoints ≠ [] → nextEndpoint c counter =
      (c.endpoints.get? (counter % c.endpoints.length), (counter + 1) % 2 ^ 64)) := by
  constructor
  · intro h
    simp [nextEndpoint, h]
  · intro h
    have hlen : ¬ c.endpoints.length = 0 := by simpa using h
    simp [nextEndpoint, hlen]
    have hidx : (counter + 1 + 18446744073709551615) % 18446744073709551616 = counter := by
      omega
    rw [hidx]

/-- C7 (witness): round-robin selection evaluated on the pick_first cluster at
counter 0. -/
theorem claim7_witness :
    clPick.endpoints ≠ [] ∧
    nextEndpoint clPick 0 =
      (clPick.endpoints.get? (0 % clPick.endpoints.length), (0 + 1) % 2 ^ 64) :=
  ⟨by decide, (claim7_round_robin clPick 0 (by decide)).2 (by decide)⟩

/-- C8 (counterexample): for P = /api and path = /api (which starts with P),
strip_prefix yields /, and prepending P gives /api/, not the original path —
the claimed round-trip fails when the remainder after P is empty. -/
theorem claim8_counterexample :
    hasPfx pApi pApi = true ∧ pApi ++ stripPfxApply pApi pApi ≠ pApi := by decide

/-- C8 (amended): when the remainder of the path after the prefix P is
non-empty and starts with a slash, applying strip_prefix{P} and prepending P
restores the original path. -/
theorem claim8_strip_roundtrip (pfx rest : Str) (h : rest.head? = some '/') :
    pfx ++ stripPfxApply pfx (pfx ++ rest) = pfx ++ rest := by
  have hne : rest ≠ [] := by
    intro he
    rw [he] at h
    simp at h
  have hpre : hasPfx (pfx ++ rest) pfx = true := by
    simp [hasPfx, List.isPrefixOf_iff_prefix]
  unfold stripPfxApply trimPfx
  rw [if_pos hpre, if_pos hpre, List.drop_left]
  rw [if_neg]
  simp [hne, h]

/-- C8 (witness): the amended round-trip evaluated at P = /api and
remainder /x. -/
theorem claim8_witness :
    pSlashX.head? = some '/' ∧
    pApi ++ stripPfxApply pApi (pApi ++ pSlashX) = pApi ++ pSlashX :=
  ⟨rfl, claim8_strip_roundtrip pApi pSlashX rfl⟩

/-- C9: for a chain built from a non-empty middleware list, a panic inside
any middleware or the terminal handler never propagates to the chain's
caller, and when the panicking execution had not started a response the
client receives a 500 Internal Server Error. -/
theorem claim9_panic_isolation (m : MMiddleware) (ms : List MMiddleware)
    (hd : MHandler) (r : MReq) (w : WState) :
    (chain hd (m :: ms) r w).2 = false ∧
    ((m (chain hd ms) r w).2 = true → (m (chain hd ms) r w).1.status = none →
      (chain hd (m :: ms) r w).1.status = some 500) := by
  constructor
  · show (recoverWrap (m (chain hd ms)) r w).2 = false
    unfold recoverWrap
    by_cases hp : (m (chain hd ms) r w).2 <;> simp [hp]
  · intro hp hs
    show (recoverWrap (m (chain hd ms)) r w).1.status = some 500
    unfold recoverWrap
    simp [hp, httpError, writeHeader, hs]

/-- C9 (witness): a one-element chain whose middleware panics responds 500
and does not propagate the panic. -/
theorem claim9_witness :
    (chain hOk [mwPanic] mreq0 w0).2 = false ∧
    (chain hOk [mwPanic] mreq0 w0).1.status = some 500 := by
  have h := claim9_panic_isolation mwPanic [] hOk mreq0 w0
  exact ⟨h.1, h.2 rfl rfl⟩

/-- C10: `Chain` with an empty middleware list returns the terminal handler
unchanged — no recovery wrapper — so a panic of the terminal handler
propagates to the caller. -/
theorem claim10_empty_chain (hd : MHandler) (r : MReq) (w : WState) :
    chain hd [] = hd ∧ ((hd r w).2 = true → (chain hd [] r w).2 = true) :=
  ⟨rfl, fun h => h⟩

/-- C10 (witness): an empty chain over a panicking terminal handler
propagates the panic. -/
theorem claim10_witness : (chain hPanic [] mreq0 w0).2 = true :=
  (claim10_empty_chain hPanic mreq0 w0).2 rfl

/-! ## Router lemmas (shared helpers for claims 3 and 4) -/

/-- A successful association-list lookup exhibits a stored binding. -/
theorem lookupA_some_mem {β : Type} (l : List (Str × β)) (k : Str) (v : β)
    (h : lookupA l k = some v) : (k, v) ∈ l := by
  induction l with
  | nil => simp [lookupA] at h
  | cons p rest ih =>
      obtain ⟨k0, v0⟩ := p
      by_cases hk : k = k0
      · subst hk
        simp [lookupA] at h
        simp [h]
      · simp only [lookupA, if_neg hk] at h
        exact List.mem_cons_of_mem _ (ih h)

/-- An exact probe only returns routes whose compiled match accepts the
request. -/
theorem exactProbe_matches (ri : RouterIndex) (r : Req) (k : Str)
    (rt : CompiledRoute) (h : exactProbe ri r k = some rt) :
    cmMatches rt.cmatch r = true := by
  unfold exactProbe at h
  split at h
  · split at h
    · cases h
      assumption
    · cases h
  · cases h

/-- An exact probe only returns routes stored in the exact map. -/
theorem exactProbe_mem (ri : RouterIndex) (r : Req) (k : Str)
    (rt : CompiledRoute) (h : exactProbe ri r k = some rt) :
    ∃ k0, (k0, rt) ∈ ri.exactRoutes := by
  unfold exactProbe at h
  split at h
  next rt1 heq =>
    split at h
    · cases h
      exact ⟨k, lookupA_some_mem _ _ _ heq⟩
    · cases h
  next => cases h

/-- Every route returned by `RouterIndex.Match` satisfies its own compiled
match on the request. -/
theorem riMatch_matches (ri : RouterIndex) (r : Req) (rt : CompiledRoute)
    (h : riMatch ri r = some rt) : cmMatches rt.cmatch r = true := by
  simp only [riMatch] at h
  split at h
  next rt1 heq =>
    cases h
    exact exactProbe_matches _ _ _ _ heq
  next =>
    split at h
    next rt2 heq2 =>
      cases h
      exact exactProbe_matches _ _ _ _ heq2
    next =>
      obtain ⟨pe, hfind, hpe⟩ := Option.map_eq_some'.mp h
      have hp := List.find?_some hfind
      rw [← hpe]
      simp only [Bool.and_eq_true] at hp
      exact hp.2

/-- Every route returned by `RouterIndex.Match` lives in the exact map or in
the prefix list. -/
theorem riMatch_prov (ri : RouterIndex) (r : Req) (rt : CompiledRoute)
    (h : riMatch ri r = some rt) :
    (∃ k, (k, rt) ∈ ri.exactRoutes) ∨ ∃ pe ∈ ri.pfxRoutes, pe.route = rt := by
  simp only [riMatch] at h
  split at h
  next rt1 heq =>
    cases h
    exact .inl (exactProbe_mem _ _ _ _ heq)
  next =>
    split at h
    next rt2 heq2 =>
      cases h
      exact .inl (exactProbe_mem _ _ _ _ heq2)
    next =>
      obtain ⟨pe, hfind, hpe⟩ := Option.map_eq_some'.mp h
      exact .inr ⟨pe, List.mem_of_find?_eq_some hfind, hpe⟩

/-- C3: the two halves of the exact-key contract that are expressible in the
source: in the legacy router, whose exact key is host|path, two routes that
differ only in host occupy distinct exact entries; and in the compiled route
index, whose exact key is METHOD|path, a hit is returned only if the
request's method satisfies the route's method set (re-checked by `Matches`
on every hit). -/
theorem claim3_exact_key :
    (∀ (h1 h2 p : Str), h1 ≠ h2 → routeKey h1 p ≠ routeKey h2 p) ∧
    (∀ (ri : RouterIndex) (r : Req) (rt : CompiledRoute),
      riMatch ri r = some rt → methodOk rt.cmatch.methods r.method = true) := by
  constructor
  · intro h1 h2 p hne heq
    apply hne
    unfold routeKey at heq
    have hlen : h1.length = h2.length := by
      have hl := congrArg List.length heq
      simp at hl
      omega
    exact (List.append_inj heq hlen).1
  · intro ri r rt h
    have hm := riMatch_matches ri r rt h
    simp only [cmMatches, Bool.and_eq_true] at hm
    exact hm.1.1.1

/-- C3 (witness): distinct hosts give distinct legacy exact keys for /x, and
a GET|/x exact hit in the compiled index satisfies its method set. -/
theorem claim3_witness :
    routeKey ['a'] pSlashX ≠ routeKey ['b'] pSlashX ∧
    riMatch riEx reqX = some rtC3 ∧
    methodOk rtC3.cmatch.methods reqX.method = true :=
  ⟨claim3_exact_key.1 ['a'] ['b'] pSlashX (by decide), by decide,
    claim3_exact_key.2 riEx reqX rtC3 (by decide)⟩

/-! ## Compilation lemmas (shared helpers for claim 4) -/

/-- Membership through one sorted insertion. -/
theorem insertPE_mem (a x : PfxRouteEntry) (l : List PfxRouteEntry) :
    x ∈ insertPE a l ↔ x = a ∨ x ∈ l := by
  induction l with
  | nil => simp [insertPE]
  | cons b rest ih =>
      unfold insertPE
      by_cases hb : peBefore a b
      · simp [hb]
      · simp [hb, ih]
        tauto

/-- Sorting the prefix list does not add entries. -/
theorem sortPE_mem (x : PfxRouteEntry) (l : List PfxRouteEntry)
    (h : x ∈ sortPE l) : x ∈ l := by
  induction l with
  | nil => simp [sortPE] at h
  | cons a rest ih =>
      rcases (insertPE_mem a x (List.foldr insertPE [] rest)).mp h with h1 | h2
      · simp [h1]
      · exact List.mem_cons_of_mem _ (ih h2)

/-- A compiled route records its source route's upstream cluster name. -/
theorem compileRoute_cluster (rv : RouteV2) (cr : CompiledRoute)
    (h : compileRoute rv = .ok cr) :
    cr.upstream.clusterName = rv.upstream.cluster := by
  unfold compileRoute at h
  split at h
  · simp at h
  · cases h
    rfl

/-- All exact entries contributed by one route carry that route's compiled
value. -/
theorem exactEntriesOf_snd (rv : RouteV2) (cr : CompiledRoute) (k : Str)
    (cr2 : CompiledRoute) (h : (k, cr2) ∈ exactEntriesOf rv cr) : cr2 = cr := by
  unfold exactEntriesOf at h
  split at h
  · simp at h
  · split at h
    · simp at h
      exact h.2
    · obtain ⟨m, _, hpair⟩ := List.mem_map.mp h
      cases hpair
      rfl

/-- All prefix entries contributed by one route carry that route's compiled
value. -/
theorem pfxEntriesOf_route (rv : RouteV2) (cr : CompiledRoute)
    (pe : PfxRouteEntry) (h : pe ∈ pfxEntriesOf rv cr) : pe.route = cr := by
  unfold pfxEntriesOf at h
  rcases List.mem_append.mp h with h1 | h1
  · split at h1
    · simp at h1
      rw [h1]
    · simp at h1
  · split at h1
    · simp at h1
      rw [h1]
    · simp at h1

/-- Every exact entry produced by the route loop comes from compiling one of
the configured routes. -/
theorem compileRoutes_exact_prov (rvs : List RouteV2) :
    ∀ (ex : List (Str × CompiledRoute)) (pf : List PfxRouteEntry),
      compileRoutes rvs = .ok (ex, pf) →
      ∀ k cr, (k, cr) ∈ ex → ∃ rv ∈ rvs, compileRoute rv = .ok cr := by
  induction rvs with
  | nil =>
      intro ex pf h k cr hm
      simp [compileRoutes] at h
      obtain ⟨he, _⟩ := h
      rw [he] at hm
      simp at hm
  | cons rv rest ih =>
      intro ex pf h k cr hm
      unfold compileRoutes at h
      split at h
      · simp at h
      next cr0 heq0 =>
        split at h
        · simp at h
        next ex1 pf1 heq1 =>
          cases h
          rcases List.mem_append.mp hm with h1 | h2
          · obtain ⟨rv1, hrv1, hcr1⟩ := ih ex1 pf1 heq1 k cr h1
            exact ⟨rv1, List.mem_cons_of_mem _ hrv1, hcr1⟩
          · have hcc := exactEntriesOf_snd rv cr0 k cr h2
            subst hcc
            exact ⟨rv, List.mem_cons_self _ _, heq0⟩

/-- Every prefix entry produced by the route loop comes from compiling one of
the configured routes. -/
theorem compileRoutes_pfx_prov (rvs : List RouteV2) :
    ∀ (ex : List (Str × CompiledRoute)) (pf : List PfxRouteEntry),
      compileRoutes rvs = .ok (ex, pf) →
      ∀ pe ∈ pf, ∃ rv ∈ rvs, compileRoute rv = .ok pe.route := by
  induction rvs with
  | nil =>
      intro ex pf h pe hm
      simp [compileRoutes] at h
      obtain ⟨_, he⟩ := h
      rw [he] at hm
      simp at hm
  | cons rv rest ih =>
      intro ex pf h pe hm
      unfold compileRoutes at h
      split at h
      · simp at h
      next cr0 heq0 =>
        split at h
        · simp at h
        next ex1 pf1 heq1 =>
          cases h
          rcases List.mem_append.mp hm with h1 | h2
          · have hcc := pfxEntriesOf_route rv cr0 pe h1
            rw [hcc]
            exact ⟨rv, List.mem_cons_self _ _, heq0⟩
          · obtain ⟨rv1, hrv1, hcr1⟩ := ih ex1 pf1 heq1 pe h2
            exact ⟨rv1, List.mem_cons_of_mem _ hrv1, hcr1⟩

/-- A passing validation yields passing cluster and routes_v2 sub-validations
with the cluster-name set handed from one to the other. -/
theorem validate_parts (cfg : Config) (h : validate cfg = .ok ()) :
    ∃ names, validateClusters cfg.clusters [] = .ok names ∧
      validateRoutesV2 names cfg.routesV2 = .ok () := by
  unfold validate at h
  split at h
  · simp at h
  · split at h
    · simp at h
    · split at h
      · simp at h
      · split at h
        · simp at h
        · split at h
          · simp at h
          next names hcl => exact ⟨names, hcl, h⟩

/-- The name set returned by `validateClusters` consists of the accumulator
plus the names of the validated clusters, and contains all of both. -/
theorem validateClusters_names (cs : List ClusterCfg) :
    ∀ (acc names : List Str), validateClusters cs acc = .ok names →
      (∀ n ∈ names, n ∈ acc ∨ ∃ c ∈ cs, c.name = n) ∧
      (∀ a ∈ acc, a ∈ names) ∧
      (∀ c ∈ cs, c.name ∈ names) := by
  induction cs with
  | nil =>
      intro acc names h
      simp [validateClusters] at h
      subst h
      exact ⟨fun n hn => .inl hn, fun a ha => ha, by simp⟩
  | cons c rest ih =>
      intro acc names h
      unfold validateClusters at h
      split_ifs at h with h1 h2 h3 h4 <;> try simp at h
      split at h
      · simp at h
      · obtain ⟨hsrc, haccsub, hmem⟩ := ih (c.name :: acc) names h
        refine ⟨?_, ?_, ?_⟩
        · intro n hn
          rcases hsrc n hn with hacc | ⟨c2, hc2, hn2⟩
          · rcases List.mem_cons.mp hacc with he | he
            · exact .inr ⟨c, List.mem_cons_self _ _, he.symm⟩
            · exact .inl he
          · exact .inr ⟨c2, List.mem_cons_of_mem _ hc2, hn2⟩
        · intro a ha
          exact haccsub a (List.mem_cons_of_mem _ ha)
        · intro c2 hc2
          rcases List.mem_cons.mp hc2 with he | he
          · rw [he]
            exact haccsub c.name (List.mem_cons_self _ _)
          · exact hmem c2 he

/-- A passing per-route validation against a non-empty cluster-name set
implies the route's cluster reference is in the set. -/
theorem validateRouteV2One_cluster (names : List Str) (r : RouteV2)
    (hne : names ≠ []) (h : validateRouteV2One names r = .ok ()) :
    r.upstream.cluster ∈ names := by
  unfold validateRouteV2One at h
  split_ifs at h with h1 h2 h3 h4 <;> try simp at h
  push_neg at h4
  exact h4 hne

/-- A passing routes_v2 validation against a non-empty cluster-name set
implies every route's cluster reference is in the set. -/
theorem validateRoutesV2_cluster (names : List Str) (hne : names ≠ []) :
    ∀ rvs : List RouteV2, validateRoutesV2 names rvs = .ok () →
      ∀ rv ∈ rvs, rv.upstream.cluster ∈ names := by
  intro rvs
  induction rvs with
  | nil =>
      intro _ rv hrv
      simp at hrv
  | cons r rest ih =>
      intro h rv hrv
      unfold validateRoutesV2 at h
      split at h
      · simp at h
      next u hone =>
        rcases List.mem_cons.mp hrv with he | he
        · subst he
          cases u
          exact validateRouteV2One_cluster names rv hne hone
        · exact ih h rv he

/-- Lookup distributes over association-list concatenation. -/
theorem lookupA_append {β : Type} (l1 l2 : List (Str × β)) (k : Str) :
    lookupA (l1 ++ l2) k =
      match lookupA l1 k with
      | some v => some v
      | none => lookupA l2 k := by
  induction l1 with
  | nil => simp [lookupA]
  | cons p rest ih =>
      obtain ⟨k0, v0⟩ := p
      by_cases hk : k = k0 <;> simp [lookupA, hk, ih]

/-- Every configured cluster name resolves in the compiled cluster map. -/
theorem compileClusters_lookup (cs : List ClusterCfg) (n : Str)
    (h : ∃ c ∈ cs, c.name = n) :
    (lookupA (compileClusters cs) n).isSome = true := by
  induction cs with
  | nil => simp at h
  | cons c rest ih =>
      obtain ⟨c2, hc2, hn⟩ := h
      unfold compileClusters
      rw [lookupA_append]
      cases hl : lookupA (compileClusters rest) n with
      | some v => simp
      | none =>
          simp only []
          rcases List.mem_cons.mp hc2 with he | he
          · rw [he] at hn
            rw [← hn]
            simp [lookupA]
          · have hs := ih ⟨c2, he, hn⟩
            rw [hl] at hs
            simp at hs

/-- A successful compile exposes its route tables and cluster map. -/
theorem compile_parts (cfg : Config) (v : Nat) (s : CompiledConfig)
    (h : compile cfg v = .ok s) :
    ∃ ex pf, compileRoutes cfg.routesV2 = .ok (ex, pf) ∧
      s.router.exactRoutes = ex ∧ s.router.pfxRoutes = sortPE pf ∧
      s.clusters = compileClusters cfg.clusters := by
  unfold compile at h
  split at h
  · simp at h
  next ex pf heq =>
    cases h
    exact ⟨ex, pf, heq, rfl, rfl, rfl⟩

/-- C4 (counterexample): `cfg0` declares no clusters but one route_v2
referencing cluster A; it passes `Validate` (the cross-check is skipped when
`clusterNames` is empty), compiles, and matching GET /x returns a route whose
recorded upstream cluster is absent from the snapshot's cluster map. -/
theorem claim4_counterexample :
    validate cfg0 = .ok () ∧
    compile cfg0 1 = .ok snap0 ∧
    ((riMatch snap0.router reqX).map fun rt =>
        lookupA snap0.clusters rt.upstream.clusterName) = some none := by decide

/-- C4 (amended): for every snapshot compiled from a configuration that
passes validation and declares at least one cluster, every route returned by
match records an upstream cluster present in the snapshot's cluster map. -/
theorem claim4_cluster_exists (cfg : Config) (v : Nat) (s : CompiledConfig)
    (r : Req) (rt : CompiledRoute)
    (hv : validate cfg = .ok ()) (hcl : cfg.clusters ≠ [])
    (hc : compile cfg v = .ok s) (hm : riMatch s.router r = some rt) :
    (lookupA s.clusters rt.upstream.clusterName).isSome = true := by
  obtain ⟨ex, pf, hroutes, hex, hpf, hclusters⟩ := compile_parts cfg v s hc
  obtain ⟨names, hvc, hvr⟩ := validate_parts cfg hv
  obtain ⟨c0, hc0⟩ := List.exists_mem_of_ne_nil cfg.clusters hcl
  have hnames3 := validateClusters_names cfg.clusters [] names hvc
  have hnne : names ≠ [] := by
    intro he
    have hmem := hnames3.2.2 c0 hc0
    rw [he] at hmem
    simp at hmem
  have hrv : ∃ rv ∈ cfg.routesV2, compileRoute rv = .ok rt := by
    rcases riMatch_prov s.router r rt hm with ⟨k, hk⟩ | ⟨pe, hpe, hper⟩
    · rw [hex] at hk
      exact compileRoutes_exact_prov cfg.routesV2 ex pf hroutes k rt hk
    · rw [hpf] at hpe
      have hpe2 := sortPE_mem pe pf hpe
      have hprov := compileRoutes_pfx_prov cfg.routesV2 ex pf hroutes pe hpe2
      rw [hper] at hprov
      exact hprov
  obtain ⟨rv, hrvmem, hrvok⟩ := hrv
  have hclname := compileRoute_cluster rv rt hrvok
  have hin : rv.upstream.cluster ∈ names :=
    validateRoutesV2_cluster names hnne cfg.routesV2 hvr rv hrvmem
  rcases hnames3.1 rv.upstream.cluster hin with habs | hex2
  · simp at habs
  · rw [hclusters, hclname]
    exact compileClusters_lookup cfg.clusters rv.upstream.cluster hex2

/-- C4 (witness): the amended invariant evaluated on `cfg1`, which declares
cluster A and routes GET /x to it. -/
theorem claim4_witness :
    validate cfg1 = .ok () ∧ cfg1.clusters ≠ [] ∧
    compile cfg1 1 = .ok snap1 ∧ riMatch snap1.router reqX = some rtW ∧
    (lookupA snap1.clusters rtW.upstream.clusterName).isSome = true :=
  ⟨by decide, by decide, by decide, by decide,
    claim4_cluster_exists cfg1 1 snap1 reqX rtW (by decide) (by decide)
      (by decide) (by decide)⟩

end Nexus
